import Mathlib

/-!
Verification of the comfy-mqtt schema-driven storage engine against its
specification.  The definitions below are a shallow embedding of
`src/config/database.ts` (PostgreSQLDatabase) and `src/routes/topics.ts`
(the topics router): JavaScript numbers are modelled as `ℚ`, machine
integers as `Nat`/`Int`, JSON values as the inductive `Json`, SQL tables
as Lean lists of row structures, and thrown exceptions as `Except`.
-/

/-- JSON-like structured values: the payloads stored by the engine and the
values produced by `JSON.parse`. -/
inductive Json where
  | null
  | bool (b : Bool)
  | num (q : ℚ)
  | str (s : String)
  | arr (elems : List Json)
  | obj (fields : List (String × Json))

/-- Embedding of the identifier sanitization `name.replace(/[^a-zA-Z0-9]/g, '_')`
used for table and column names. -/
def sanitizeIdentifier (s : String) : String :=
  String.mk (s.data.map fun c => if c.isAlphanum then c else '_')

/-- Model of JavaScript `toLowerCase()` (character-wise lowering). -/
def jsToLowerCase (s : String) : String :=
  String.mk (s.data.map Char.toLower)

/-- Rendering of a JavaScript number: integers print without a fractional
part.  (Model of `String(x)` / `JSON.stringify` on numbers.) -/
def ratToJsString (q : ℚ) : String :=
  if q.den = 1 then toString q.num else toString q

mutual

/-- Model of `JSON.stringify` restricted to the structured values of `Json`. -/
def jsonStringify : Json → String
  | .null => "null"
  | .bool b => if b then "true" else "false"
  | .num q => ratToJsString q
  | .str s => "\"" ++ s ++ "\""
  | .arr xs => "[" ++ jsonStringifyList xs ++ "]"
  | .obj kvs => "\x7b" ++ jsonStringifyObj kvs ++ "\x7d"

def jsonStringifyList : List Json → String
  | [] => ""
  | [x] => jsonStringify x
  | x :: y :: xs => jsonStringify x ++ "," ++ jsonStringifyList (y :: xs)

def jsonStringifyObj : List (String × Json) → String
  | [] => ""
  | [(k, v)] => "\"" ++ k ++ "\":" ++ jsonStringify v
  | (k, v) :: kv :: kvs => "\"" ++ k ++ "\":" ++ jsonStringify v ++ "," ++ jsonStringifyObj (kv :: kvs)

end

/-- Left brace character (written via its code point to keep string literals
free of braces). -/
def lbraceChar : Char := Char.ofNat 123

/-- Right brace character. -/
def rbraceChar : Char := Char.ofNat 125

/-- Whitespace skipping for the `JSON.parse` model. -/
def skipWs : List Char → List Char
  | [] => []
  | c :: cs => if c = ' ' ∨ c = '\n' ∨ c = '\t' ∨ c = '\r' then skipWs cs else c :: cs

def takeDigits : List Char → List Char × List Char
  | [] => ([], [])
  | c :: cs =>
    if c.isDigit then
      let (ds, rest) := takeDigits cs
      (c :: ds, rest)
    else ([], c :: cs)

def digitsToNat (ds : List Char) : Nat :=
  ds.foldl (fun n c => n * 10 + (c.toNat - 48)) 0

def parseNumberChars (cs : List Char) : Option (ℚ × List Char) :=
  let (neg, cs1) :=
    match cs with
    | '-' :: rest => (true, rest)
    | _ => (false, cs)
  match takeDigits cs1 with
  | ([], _) => none
  | (intDs, cs2) =>
    let intPart : ℚ := (digitsToNat intDs : ℚ)
    match cs2 with
    | '.' :: cs3 =>
      match takeDigits cs3 with
      | ([], _) => none
      | (fracDs, cs4) =>
        let v := intPart + (digitsToNat fracDs : ℚ) / ((10 : ℚ) ^ fracDs.length)
        some (if neg then -v else v, cs4)
    | _ => some (if neg then -intPart else intPart, cs2)

def parseStringChars : List Char → Option (String × List Char)
  | [] => none
  | c :: cs =>
    if c = '"' then some ("", cs)
    else if c = '\\' then none
    else
      match parseStringChars cs with
      | some (s, rest) => some (String.mk (c :: s.data), rest)
      | none => none

mutual

/-- Fuel-bounded recursive-descent model of `JSON.parse` (value grammar:
null, booleans, numbers, strings, arrays, objects); `none` models a thrown
`SyntaxError`. -/
def parseJsonValue : Nat → List Char → Option (Json × List Char)
  | 0, _ => none
  | fuel + 1, cs =>
    match skipWs cs with
    | [] => none
    | c :: rest =>
      if c = 'n' then
        match rest with
        | 'u' :: 'l' :: 'l' :: r => some (.null, r)
        | _ => none
      else if c = 't' then
        match rest with
        | 'r' :: 'u' :: 'e' :: r => some (.bool true, r)
        | _ => none
      else if c = 'f' then
        match rest with
        | 'a' :: 'l' :: 's' :: 'e' :: r => some (.bool false, r)
        | _ => none
      else if c = '"' then
        match parseStringChars rest with
        | some (s, r) => some (.str s, r)
        | none => none
      else if c = '[' then
        match skipWs rest with
        | ']' :: r => some (.arr [], r)
        | r2 => parseJsonElements fuel r2 []
      else if c = lbraceChar then
        match skipWs rest with
        | d :: r2 => if d = rbraceChar then some (.obj [], r2) else parseJsonMembers fuel (d :: r2) []
        | [] => none
      else
        match parseNumberChars (c :: rest) with
        | some (q, r) => some (.num q, r)
        | none => none

def parseJsonElements : Nat → List Char → List Json → Option (Json × List Char)
  | 0, _, _ => none
  | fuel + 1, cs, acc =>
    match parseJsonValue fuel cs with
    | none => none
    | some (v, rest) =>
      match skipWs rest with
      | ',' :: r => parseJsonElements fuel r (acc ++ [v])
      | ']' :: r => some (.arr (acc ++ [v]), r)
      | _ => none

def parseJsonMembers : Nat → List Char → List (String × Json) → Option (Json × List Char)
  | 0, _, _ => none
  | fuel + 1, cs, acc =>
    match skipWs cs with
    | c :: rest =>
      if c = '"' then
        match parseStringChars rest with
        | some (k, r1) =>
          match skipWs r1 with
          | ':' :: r2 =>
            match parseJsonValue fuel r2 with
            | some (v, r3) =>
              match skipWs r3 with
              | ',' :: r4 => parseJsonMembers fuel r4 (acc ++ [(k, v)])
              | d :: r5 => if d = rbraceChar then some (.obj (acc ++ [(k, v)]), r5) else none
              | [] => none
            | none => none
          | _ => none
        | none => none
      else none
    | [] => none

end

/-- Model of `JSON.parse`: `none` models a thrown `SyntaxError`. -/
def jsonParse (s : String) : Option Json :=
  match parseJsonValue (s.length + 1) s.data with
  | some (j, rest) => if skipWs rest = [] then some j else none
  | none => none

/-- Read order of `getMessages` ('asc' or 'desc'). -/
inductive Order where
  | asc
  | desc
deriving DecidableEq, Repr

/-- A declared field type in a topic schema: either a type-name string or a
nested object/array description (`typeof fieldType === 'object'`). -/
inductive FieldDecl where
  | typeName (s : String)
  | nested
deriving DecidableEq, Repr

/-- A topic schema: an ordered mapping from field name to declared type. -/
abbrev Schema := List (String × FieldDecl)

/-- Embedding of the Joi-type → PostgreSQL-type switch inside
`generateColumnsFromSchema` (src/config/database.ts). -/
def pgTypeOf (fieldType : FieldDecl) : String :=
  match fieldType with
  | .typeName s =>
    let t := jsToLowerCase s
    if t = "number" ∨ t = "integer" then "NUMERIC"
    else if t = "boolean" then "BOOLEAN"
    else if t = "date" ∨ t = "timestamp" then "TIMESTAMP"
    else if t = "array" then "JSONB"
    else if t = "object" then "JSONB"
    else "TEXT"
  | .nested => "JSONB"

/-- Embedding of `generateColumnsFromSchema`: one `"column type"` entry per
schema field, in declaration order. -/
def generateColumnsFromSchema (schema : Schema) : List String :=
  schema.map (fun fd => sanitizeIdentifier fd.1 ++ " " ++ pgTypeOf fd.2)

/-- A physical column value in a dedicated topic table.  A structured
(JSONB-backed) column is carried as its serialized text, which the read
path feeds to `JSON.parse`. -/
inductive PhysVal where
  | pnull
  | pnum (q : ℚ)
  | pbool (b : Bool)
  | ptext (s : String)
  | ptimestamp (t : Int)
  | pstructured (s : String)
deriving DecidableEq, Repr

/-- JavaScript truthiness of a column value (`value ? _ : _`). -/
def PhysVal.truthy : PhysVal → Bool
  | .pnull => false
  | .pnum q => q != 0
  | .pbool b => b
  | .ptext s => s != ""
  | .ptimestamp _ => true
  | .pstructured s => s != ""

/-- A non-structured column value read back as a JavaScript value
("other types are already in correct format"). -/
def PhysVal.toJsonValue : PhysVal → Json
  | .pnull => .null
  | .pnum q => .num q
  | .pbool b => .bool b
  | .ptext s => .str s
  | .ptimestamp t => .str (toString t)
  | .pstructured s => .str s

/-- Text content of a column value, as handed to `JSON.parse` on the
structured read path. -/
def PhysVal.rawText : PhysVal → String
  | .pnull => "null"
  | .pnum q => ratToJsString q
  | .pbool b => if b then "true" else "false"
  | .ptext s => s
  | .ptimestamp t => toString t
  | .pstructured s => s

/-- Whether the decode switch in `getMessages` treats a field as structured
(case 'array' / case 'object', or a non-string declared type). -/
def FieldDecl.isStructured : FieldDecl → Bool
  | .typeName s => jsToLowerCase s == "array" || jsToLowerCase s == "object"
  | .nested => true

/-- A row of a dedicated topic table: `id SERIAL PRIMARY KEY`, a
`received_at TIMESTAMP`, and one column per sanitized schema field. -/
structure DedRow where
  id : Nat
  received_at : Int
  cols : List (String × PhysVal)
deriving DecidableEq, Repr

/-- A row of the shared `messages` table: `(id, topic_name, payload, received_at)`;
the payload is one opaque JSONB value. -/
structure SharedRow where
  id : Nat
  topic_name : String
  payload : Json
  received_at : Int

/-- JavaScript truthiness of the `limit` query value (`if (limit) ...`):
`null` and `0` are falsy. -/
def jsTruthyLimit : Option Int → Bool
  | none => false
  | some n => n != 0

/-- Embedding of the `LIMIT`/`OFFSET` clause construction of `getMessages`:
with a truthy limit the query carries `LIMIT $ OFFSET $`, otherwise only
`OFFSET $`. -/
def applyWindow (limit : Option Int) (offset : Nat) (rows : List α) : List α :=
  if jsTruthyLimit limit then
    match limit with
    | some n => (rows.drop offset).take n.toNat
    | none => rows.drop offset
  else rows.drop offset

/-- The comparison realized by `ORDER BY received_at ASC` / `DESC`.  Note the
source query orders by `received_at` alone, with no `id` tie-break. -/
def orderLe (recvOf : α → Int) : Order → α → α → Prop
  | .asc, a, b => recvOf a ≤ recvOf b
  | .desc, a, b => recvOf b ≤ recvOf a

instance (recvOf : α → Int) (order : Order) : DecidableRel (orderLe recvOf order) := fun a b => by
  cases order <;> simp only [orderLe] <;> infer_instance

instance (recvOf : α → Int) (order : Order) : IsTotal α (orderLe recvOf order) :=
  ⟨fun a b => by cases order <;> simp only [orderLe] <;> exact Int.le_total _ _⟩

instance (recvOf : α → Int) (order : Order) : IsTrans α (orderLe recvOf order) :=
  ⟨fun a b c => by cases order <;> simp only [orderLe] <;> intro h1 h2 <;> omega⟩

/-- Semantics of `ORDER BY received_at {order}` over a table in arbitrary
physical row order: a stable sort on `received_at` alone.  (SQL fixes only
the key order; the relative order of equal keys is whatever the physical
order provides.) -/
def sortRowsByReceivedAt (recvOf : α → Int) (order : Order) (rows : List α) : List α :=
  rows.insertionSort (orderLe recvOf order)

/-- Row selection of the dedicated-table branch of `getMessages`:
`SELECT ... FROM t ORDER BY received_at {order} [LIMIT $] OFFSET $`. -/
def selectDedicatedRows (tableRows : List DedRow) (order : Order)
    (limit : Option Int) (offset : Nat) : List DedRow :=
  applyWindow limit offset (sortRowsByReceivedAt DedRow.received_at order tableRows)

/-- Row selection of the shared-table branch of `getMessages`:
`SELECT ... FROM messages WHERE topic_name = $ ORDER BY received_at {order} ...`. -/
def selectSharedRows (tableRows : List SharedRow) (topicName : String) (order : Order)
    (limit : Option Int) (offset : Nat) : List SharedRow :=
  applyWindow limit offset
    (sortRowsByReceivedAt SharedRow.received_at order
      (tableRows.filter (fun r => r.topic_name == topicName)))

/-- A `SyntaxError` thrown by `JSON.parse` while reconstructing a structured
field on read. -/
inductive DecodeError where
  | decodeFailure
deriving DecidableEq, Repr

/-- A record returned by `getMessages`: optional `_id` / `_received_at`
metadata plus the reconstructed payload fields. -/
structure FetchedMessage where
  metaId : Option Nat
  metaReceivedAt : Option Int
  fields : List (String × Json)

/-- Decode of one column value per the field-type switch in `getMessages`:
structured fields run `value ? JSON.parse(value) : null`, other fields pass
through. -/
def decodeFieldValue (fieldType : FieldDecl) (v : PhysVal) : Except DecodeError Json :=
  if fieldType.isStructured then
    if v.truthy then
      match jsonParse v.rawText with
      | some j => .ok j
      | none => .error .decodeFailure
    else .ok .null
  else .ok v.toJsonValue

/-- Column lookup in a row (`row[columnName]`); a missing column reads as
null/undefined. -/
def lookupColumn (cols : List (String × PhysVal)) (name : String) : PhysVal :=
  match cols.find? (fun kv => kv.1 == name) with
  | some kv => kv.2
  | none => .pnull

/-- Payload reconstruction for one dedicated-table row (the
`result.rows.map` body of `getMessages`): every schema field is read from
its sanitized column and decoded; a decode failure throws. -/
def decodeDedRow (schema : Schema) (includeMetadata : Bool) (row : DedRow) :
    Except DecodeError FetchedMessage := do
  let fields ← schema.mapM (fun fd => do
    let v := lookupColumn row.cols (sanitizeIdentifier fd.1)
    let j ← decodeFieldValue fd.2 v
    pure (fd.1, j))
  pure ⟨if includeMetadata then some row.id else none,
        if includeMetadata then some row.received_at else none,
        fields⟩

/-- Decode of a row sequence (the `result.rows.map(...)` call): a thrown
`SyntaxError` aborts the whole traversal. -/
def decodeRows (schema : Schema) (includeMetadata : Bool) :
    List DedRow → Except DecodeError (List FetchedMessage)
  | [] => .ok []
  | r :: rs => do
    let m ← decodeDedRow schema includeMetadata r
    let ms ← decodeRows schema includeMetadata rs
    pure (m :: ms)

/-- Dedicated-table branch of `getMessages`: select rows, then decode each;
a `SyntaxError` thrown inside the map aborts the whole call (the outer
catch re-throws everything except the missing-table code 42P01). -/
def getMessagesDedicated (tableRows : List DedRow) (schema : Schema)
    (limit : Option Int) (offset : Nat) (includeMetadata : Bool) (order : Order) :
    Except DecodeError (List FetchedMessage) :=
  decodeRows schema includeMetadata (selectDedicatedRows tableRows order limit offset)

/-- Metadata attachment of the shared branch (`payload._id = row.id; ...`):
object payloads gain `_id` and `_received_at` keys, the payload is otherwise
returned untouched. -/
def attachSharedMetadata (includeMetadata : Bool) (row : SharedRow) : Json :=
  if includeMetadata then
    match row.payload with
    | .obj kvs => .obj (kvs ++ [("_id", .num row.id), ("_received_at", .str (toString row.received_at))])
    | j => j
  else row.payload

/-- Shared-table branch of `getMessages`: select the topic's rows and return
each stored payload as-is (no per-field conversion). -/
def getMessagesShared (tableRows : List SharedRow) (topicName : String)
    (limit : Option Int) (offset : Nat) (includeMetadata : Bool) (order : Order) : List Json :=
  (selectSharedRows tableRows topicName order limit offset).map (attachSharedMetadata includeMetadata)

/-- The deletion order of the retention pass:
`ORDER BY received_at ASC, id ASC` — a total order since ids are unique. -/
def retentionLe (idOf : α → Nat) (recvOf : α → Int) (a b : α) : Prop :=
  recvOf a < recvOf b ∨ (recvOf a = recvOf b ∧ idOf a ≤ idOf b)

instance (idOf : α → Nat) (recvOf : α → Int) : DecidableRel (retentionLe idOf recvOf) :=
  fun a b => by unfold retentionLe; infer_instance

instance (idOf : α → Nat) (recvOf : α → Int) : IsTotal α (retentionLe idOf recvOf) :=
  ⟨fun a b => by unfold retentionLe; omega⟩

instance (idOf : α → Nat) (recvOf : α → Int) : IsTrans α (retentionLe idOf recvOf) :=
  ⟨fun a b c => by unfold retentionLe; omega⟩

/-- Embedding of `manageTableRetention` (src/config/database.ts): compare the
footprint (in KB, `totalSizeBytes / 1024`) against the configured maximum;
when over, delete the oldest `ceil(excess / averageRowSize)` rows in
`(received_at ASC, id ASC)` order and report how many rows were deleted.
Generic in the row type: it runs over both the shared `messages` table and
dedicated topic tables. -/
def manageTableRetention (idOf : α → Nat) (recvOf : α → Int)
    (maxTableSizeKB : Nat) (totalSizeBytes : Nat) (rows : List α) : Nat × List α :=
  let currentSizeKB : ℚ := (totalSizeBytes : ℚ) / 1024
  if currentSizeKB ≤ (maxTableSizeKB : ℚ) then (0, rows)
  else if rows.length = 0 then (0, rows)
  else
    let averageRowSizeKB : ℚ := currentSizeKB / (rows.length : ℚ)
    let targetSizeKB : ℚ := (maxTableSizeKB : ℚ) * (0.8 : ℚ)
    let excessSizeKB : ℚ := currentSizeKB - targetSizeKB
    let rowsToDelete : ℤ := ⌈excessSizeKB / averageRowSizeKB⌉
    if rowsToDelete ≤ 0 then (0, rows)
    else
      let ordered := rows.insertionSort (retentionLe idOf recvOf)
      let deletedIds := (ordered.take rowsToDelete.toNat).map idOf
      let remaining := rows.filter (fun r => !(deletedIds.contains (idOf r)))
      (rows.length - remaining.length, remaining)

/-- Shared-table branch of `storeMessage`: `INSERT INTO messages (topic_name,
payload) VALUES ($1, $2) RETURNING id`, then a retention pass over the
`messages` table.  The whole payload is stored as one opaque structured
value. -/
def storeMessageShared (maxTableSizeKB totalSizeBytesAfterInsert : Nat)
    (tableRows : List SharedRow) (nextId : Nat) (topicName : String) (payload : Json)
    (now : Int) : Nat × List SharedRow :=
  let inserted := tableRows ++ [⟨nextId, topicName, payload, now⟩]
  let ret := manageTableRetention SharedRow.id SharedRow.received_at
    maxTableSizeKB totalSizeBytesAfterInsert inserted
  (nextId, ret.2)

/-- Database-level failures surfaced by a statement. -/
inductive DbErr where
  | relationMissing
  | topicNotFound (t : String)
  | statementError (code : String)
deriving DecidableEq, Repr

/-- Outcomes of the individual statements run by the dedicated-table branch
of `storeMessage`: the first insert attempt, whether the topic row is still
present when the catch block re-reads the schema, and the retried insert. -/
structure StoreTrace where
  firstInsert : Except DbErr Nat
  retrySchemaFound : Bool
  retryInsert : Except DbErr Nat

/-- Observable outcome of a `storeMessage` call: the returned id or thrown
error, how many times `createTopicTable` ran, and how many insert attempts
were made. -/
structure StoreOutcome where
  result : Except DbErr Nat
  createTableCalls : Nat
  insertAttempts : Nat
deriving Repr

/-- Control-flow embedding of the dedicated-table branch of `storeMessage`
(src/config/database.ts, try/catch): a first insert failure with
PostgreSQL code 42P01 (`relationMissing`) triggers one `createTopicTable`
call and exactly one retried insert whose outcome is returned; any other
error, and any error of the retried insert, propagates. -/
def storeMessageDedicatedFlow (topicName : String) (tr : StoreTrace) : StoreOutcome :=
  match tr.firstInsert with
  | .ok messageId => ⟨.ok messageId, 0, 1⟩
  | .error e =>
    if e = DbErr.relationMissing then
      if tr.retrySchemaFound then
        match tr.retryInsert with
        | .ok messageId => ⟨.ok messageId, 1, 2⟩
        | .error e2 => ⟨.error e2, 1, 2⟩
      else ⟨.error (.topicNotFound topicName), 1, 1⟩
    else ⟨.error e, 0, 1⟩

/-- A row of the `topics` registry table. -/
structure TopicRow where
  name : String
  schema : Schema
  use_dedicated_table : Bool

/-- Embedding of `addTopic`: `INSERT INTO topics ... ON CONFLICT (name) DO
UPDATE SET schema = $2, use_dedicated_table = $3`.  The function returns no
value (`Promise<void>`), modelled by the `Unit` component. -/
def addTopic (topics : List TopicRow) (topicName : String) (schema : Schema)
    (useDedicatedTable : Bool) : List TopicRow × Unit :=
  let updated :=
    if topics.any (fun t => t.name == topicName) then
      topics.map (fun t =>
        if t.name == topicName then
          { t with schema := schema, use_dedicated_table := useDedicatedTable }
        else t)
    else topics ++ [{ name := topicName, schema := schema, use_dedicated_table := useDedicatedTable }]
  (updated, ())

/-- Registry lookup (`SELECT * FROM topics WHERE name = $1`). -/
def findTopic (topics : List TopicRow) (topicName : String) : Option TopicRow :=
  topics.find? (fun t => t.name == topicName)

/-- A value of a JSON request-body field, as seen by the Joi validator. -/
inductive JsField where
  | absent
  | jstr (s : String)
  | jobj (kvs : List (String × Json))
  | jbool (b : Bool)
  | jother

/-- The request body of `POST /api/topics`. -/
structure TopicPostBody where
  name : JsField
  schema : JsField
  useDedicatedTable : JsField

/-- Result of `topicSchema.validate(req.body)`. -/
inductive ValidationOutcome where
  | ok (name : String) (schema : List (String × Json)) (useDedicatedTable : Bool)
  | error (message : String)

/-- Embedding of the Joi topic schema (src/routes/topics.ts):
`name: Joi.string().required().min(1).max(255)`,
`schema: Joi.object().required()`,
`useDedicatedTable: Joi.boolean().default(false)`.
Joi's `object()` accepts any object value, including the empty object. -/
def validateTopicBody (body : TopicPostBody) : ValidationOutcome :=
  match body.name with
  | .absent => .error "name is required"
  | .jstr s =>
    if s.length = 0 then .error "name is not allowed to be empty"
    else if 255 < s.length then .error "name length must be at most 255"
    else
      match body.schema with
      | .jobj kvs =>
        match body.useDedicatedTable with
        | .absent => .ok s kvs false
        | .jbool b => .ok s kvs b
        | _ => .error "useDedicatedTable must be a boolean"
      | .absent => .error "schema is required"
      | _ => .error "schema must be of type object"
  | _ => .error "name must be a string"

/-- A database/broker action performed by the topics router. -/
inductive DbAction where
  | addTopicCall (name : String) (schema : List (String × Json)) (useDedicatedTable : Bool)
  | subscribeCall (name : String)

/-- Control-flow embedding of the `POST /` handler of the topics router:
validation failure answers 400 and performs no database action; success
registers the topic, subscribes, and answers 201. -/
def routerPostTopics (body : TopicPostBody) : Nat × List DbAction :=
  match validateTopicBody body with
  | .error _ => (400, [])
  | .ok name kvs ded => (201, [.addTopicCall name kvs ded, .subscribeCall name])

/-- A message as consumed by `generateCSV`: the `_id` / `_received_at`
metadata attached by `getMessages(includeMetadata = true)` plus the payload
fields. -/
structure CsvMessage where
  metaId : Option Int
  metaReceivedAt : Option String
  fields : List (String × Json)

/-- The id cell: `message._id || 'N/A'` (JavaScript truthiness: a missing or
zero id renders as `N/A`). -/
def csvIdCell (m : CsvMessage) : String :=
  match m.metaId with
  | some n => if n = 0 then "N/A" else toString n
  | none => "N/A"

/-- The received_at cell: `message._received_at || new Date().toISOString()`;
`now` stands for the current time rendered by the fallback. -/
def csvReceivedAtCell (now : String) (m : CsvMessage) : String :=
  match m.metaReceivedAt with
  | some s => if s = "" then now else s
  | none => now

/-- Quoting condition of `generateCSV`: the rendered value contains a comma,
a double quote, or a line break. -/
def csvNeedsQuoting (s : String) : Bool :=
  s.contains ',' || s.contains '"' || s.contains '\n'

/-- Rendering of one payload field value to its CSV cell: null/undefined
render empty; objects and arrays render as serialized JSON; primitives as
their literal text; then the quoting rule wraps the value in double quotes
doubling internal double quotes. -/
def csvFieldCell (value : Option Json) : String :=
  match value with
  | none => ""
  | some .null => ""
  | some v =>
    let csvValue :=
      match v with
      | .arr xs => jsonStringify (.arr xs)
      | .obj kvs => jsonStringify (.obj kvs)
      | .str s => s
      | .bool b => if b then "true" else "false"
      | .num q => ratToJsString q
      | .null => ""
    if csvNeedsQuoting csvValue then "\"" ++ csvValue.replace "\"" "\"\"" ++ "\"" else csvValue

/-- Payload field lookup (`message[fieldName]`). -/
def csvLookupField (m : CsvMessage) (fieldName : String) : Option Json :=
  (m.fields.find? (fun kv => kv.1 == fieldName)).map (fun kv => kv.2)

/-- Embedding of `generateCSV` (src/routes/topics.ts): empty input renders
the empty string; otherwise a header line `id,received_at,<fields...>`
followed by one line per message, accumulated exactly as the source's
`csv += row.join(',') + '\n'` loop. -/
def generateCSV (now : String) (messages : List CsvMessage) (schema : Schema)
    (useDedicatedTable : Bool) : String :=
  if messages.length = 0 then ""
  else
    let fieldNames := schema.map (fun fd => fd.1)
    let headers := "id" :: "received_at" :: fieldNames
    let headerLine := String.intercalate "," headers ++ "\n"
    messages.foldl (fun csv message =>
      let row := csvIdCell message :: csvReceivedAtCell now message ::
        fieldNames.map (fun fieldName => csvFieldCell (csvLookupField message fieldName))
      csv ++ String.intercalate "," row ++ "\n") headerLine

/-! ### Helper lemmas -/

theorem DecodeError.eq_decodeFailure (e : DecodeError) : e = .decodeFailure := by
  cases e; rfl

/-! ### C5 -/

/-- C5: the physical column type is determined by the declared field type
exactly as: string maps to TEXT, number and integer map to NUMERIC, boolean
to BOOLEAN, date and timestamp to TIMESTAMP, array and object to JSONB, and
any unrecognized type name maps to TEXT (the function is total: no error). -/
theorem c5_column_type_mapping :
    pgTypeOf (.typeName "string") = "TEXT" ∧
    pgTypeOf (.typeName "number") = "NUMERIC" ∧
    pgTypeOf (.typeName "integer") = "NUMERIC" ∧
    pgTypeOf (.typeName "boolean") = "BOOLEAN" ∧
    pgTypeOf (.typeName "date") = "TIMESTAMP" ∧
    pgTypeOf (.typeName "timestamp") = "TIMESTAMP" ∧
    pgTypeOf (.typeName "array") = "JSONB" ∧
    pgTypeOf (.typeName "object") = "JSONB" ∧
    ∀ s : String,
      jsToLowerCase s ∉ (["number", "integer", "boolean", "date", "timestamp", "array", "object"] : List String) →
      pgTypeOf (.typeName s) = "TEXT" := by
  refine ⟨rfl, rfl, rfl, rfl, rfl, rfl, rfl, rfl, ?_⟩
  intro s hs
  simp only [List.mem_cons, List.mem_singleton, not_or] at hs
  obtain ⟨h1, h2, h3, h4, h5, h6, h7⟩ := hs
  simp [pgTypeOf, h1, h2, h3, h4, h5, h6, h7]

/-- Witness for C5: a type name outside the recognized list maps to TEXT. -/
theorem c5_column_type_mapping_witness :
    (jsToLowerCase "varchar" ∉ (["number", "integer", "boolean", "date", "timestamp", "array", "object"] : List String)) ∧
    pgTypeOf (.typeName "varchar") = "TEXT" :=
  ⟨by decide, c5_column_type_mapping.2.2.2.2.2.2.2.2 "varchar" (by decide)⟩

/-! ### C10 -/

/-- C10: in both storage branches of `getMessages`, a fetch with `limit = 0`
returns the same sequence as a fetch with no limit (the `if (limit)` test
treats 0 as absent), for every table state, offset and order. -/
theorem c10_zero_limit_is_unbounded :
    (∀ (tableRows : List DedRow) (schema : Schema) (offset : Nat)
        (includeMetadata : Bool) (order : Order),
      getMessagesDedicated tableRows schema (some 0) offset includeMetadata order =
        getMessagesDedicated tableRows schema none offset includeMetadata order) ∧
    (∀ (tableRows : List SharedRow) (topicName : String) (offset : Nat)
        (includeMetadata : Bool) (order : Order),
      getMessagesShared tableRows topicName (some 0) offset includeMetadata order =
        getMessagesShared tableRows topicName none offset includeMetadata order) := by
  constructor <;> intros <;> rfl

/-! ### C3 -/

/-- C3: when the first insert into a dedicated topic table fails with the
"relation does not exist" code, the store runs `createTopicTable` exactly
once and retries the insert exactly once, returning the retry's outcome
(the assigned id on success, the retry's error otherwise); a first-insert
success inserts once and creates nothing; any other first-insert error
propagates with no table creation and no retry. -/
theorem c3_self_heal_retry (topicName : String) (tr : StoreTrace) :
    (∀ messageId, tr.firstInsert = .ok messageId →
      storeMessageDedicatedFlow topicName tr = ⟨.ok messageId, 0, 1⟩) ∧
    (tr.firstInsert = .error .relationMissing → tr.retrySchemaFound = true →
      storeMessageDedicatedFlow topicName tr = ⟨tr.retryInsert, 1, 2⟩) ∧
    (∀ e, tr.firstInsert = .error e → e ≠ .relationMissing →
      storeMessageDedicatedFlow topicName tr = ⟨.error e, 0, 1⟩) := by
  refine ⟨?_, ?_, ?_⟩
  · intro messageId h
    simp [storeMessageDedicatedFlow, h]
  · intro h1 h2
    simp only [storeMessageDedicatedFlow, h1, h2, if_pos rfl, if_true]
    cases tr.retryInsert <;> rfl
  · intro e h1 h2
    simp [storeMessageDedicatedFlow, h1, h2]

/-- Witness for C3: a missing-table failure followed by a successful retry
returns the retried id with one table creation and two insert attempts. -/
theorem c3_self_heal_retry_witness :
    ((Except.error DbErr.relationMissing : Except DbErr Nat) = .error .relationMissing) ∧
    storeMessageDedicatedFlow "sensor" ⟨.error .relationMissing, true, .ok 7⟩ = ⟨.ok 7, 1, 2⟩ :=
  ⟨rfl, (c3_self_heal_retry "sensor" ⟨.error .relationMissing, true, .ok 7⟩).2.1 rfl rfl⟩

/-! ### C6 -/

/-- C6 counterexample: a request with a non-empty name and an EMPTY fields
object passes validation — the router answers 201 and registers the topic,
so an empty fields mapping is not rejected with a ValidationError. -/
theorem c6_counterexample :
    (routerPostTopics ⟨.jstr "sensor", .jobj [], .absent⟩).1 ≠ 400 ∧
    (routerPostTopics ⟨.jstr "sensor", .jobj [], .absent⟩).2 ≠ [] := by
  have h : routerPostTopics ⟨.jstr "sensor", .jobj [], .absent⟩ =
      (201, [.addTopicCall "sensor" [] false, .subscribeCall "sensor"]) := rfl
  rw [h]
  exact ⟨by decide, by simp⟩

/-- C6 (amended): `createTopic` fails with a ValidationError when the
supplied name is empty (or absent, not a string, or longer than 255), or
when the fields mapping is absent; an empty-but-present fields object is
accepted.  On any validation failure the router answers 400 and performs no
database or broker action, so no topic is registered and no storage unit is
created. -/
theorem c6_validation (body : TopicPostBody) :
    (∀ message, validateTopicBody body = .error message → routerPostTopics body = (400, [])) ∧
    (∀ schemaField ded, ∃ message,
      validateTopicBody ⟨.jstr "", schemaField, ded⟩ = .error message) ∧
    (∀ nameField ded, ∃ message,
      validateTopicBody ⟨nameField, .absent, ded⟩ = .error message) := by
  refine ⟨?_, ?_, ?_⟩
  · intro message h
    simp [routerPostTopics, h]
  · intro schemaField ded
    exact ⟨_, rfl⟩
  · intro nameField ded
    cases nameField with
    | jstr s =>
      simp only [validateTopicBody]
      split_ifs <;> exact ⟨_, rfl⟩
    | absent => exact ⟨_, rfl⟩
    | jobj kvs => exact ⟨_, rfl⟩
    | jbool b => exact ⟨_, rfl⟩
    | jother => exact ⟨_, rfl⟩

/-- Witness for C6 (amended): a body with an absent name fails validation
and the router performs no action. -/
theorem c6_validation_witness :
    validateTopicBody ⟨.absent, .absent, .absent⟩ = .error "name is required" ∧
    routerPostTopics ⟨.absent, .absent, .absent⟩ = (400, []) :=
  ⟨rfl, (c6_validation ⟨.absent, .absent, .absent⟩).1 "name is required" rfl⟩

/-! ### C8 -/

/-- C8 counterexample: `addTopic` returns no value (`Promise<void>`), so no
caller-side function can read the previous storage mode off its result: any
decoding would have to distinguish a re-registration over an existing
shared-mode topic (previous mode `some false`) from a fresh registration
(no previous mode), and both calls return the same unit value. -/
theorem c8_counterexample :
    ¬ ∃ f : Unit → Option Bool,
      f (addTopic [⟨"t", [], false⟩] "t" [] true).2 = some false ∧
      f (addTopic [] "t" [] true).2 = none := by
  rintro ⟨f, h1, h2⟩
  have h3 : f () = some false := h1
  have h4 : f () = none := h2
  simp [h3] at h4

theorem findTopic_map_update (topics : List TopicRow) (n : String) (s : Schema) (d : Bool)
    (h : topics.any (fun t => t.name == n) = true) :
    (topics.map (fun t =>
      if t.name == n then { t with schema := s, use_dedicated_table := d } else t)).find?
      (fun t => t.name == n) = some ⟨n, s, d⟩ := by
  induction topics with
  | nil => simp at h
  | cons t ts ih =>
    by_cases hn : t.name = n
    · cases t with
      | mk tn tsch td =>
        subst hn
        rw [List.map_cons]
        simp only [beq_self_eq_true, if_true]
        exact List.find?_cons_of_pos _ (by simp)
    · have h' : ts.any (fun t => t.name == n) = true := by
        simpa [List.any_cons, hn] using h
      rw [List.map_cons]
      have hhead : (if (t.name == n) = true
          then { t with schema := s, use_dedicated_table := d } else t) = t := by
        simp [hn]
      rw [hhead, List.find?_cons_of_neg _ (by simp [hn])]
      exact ih h'

theorem findTopic_append_new (topics : List TopicRow) (n : String) (s : Schema) (d : Bool)
    (h : topics.any (fun t => t.name == n) = false) :
    (topics ++ [⟨n, s, d⟩] : List TopicRow).find? (fun t => t.name == n) = some ⟨n, s, d⟩ := by
  induction topics with
  | nil => simp [List.find?]
  | cons t ts ih =>
    simp only [List.any_cons, Bool.or_eq_false_iff] at h
    obtain ⟨h1, h2⟩ := h
    simp only [List.cons_append, List.find?_cons, h1]
    exact ih h2

theorem find?_map_update_other (topics : List TopicRow) (n : String) (s : Schema) (d : Bool)
    (other : String) (hother : other ≠ n) :
    (topics.map (fun t =>
      if t.name == n then { t with schema := s, use_dedicated_table := d } else t)).find?
      (fun t => t.name == other) = topics.find? (fun t => t.name == other) := by
  induction topics with
  | nil => simp
  | cons t ts ih =>
    by_cases hn : t.name = n
    · have hno : ¬ (t.name = other) := by
        rw [hn]; exact fun e => hother e.symm
      rw [List.map_cons]
      have hhead : (if (t.name == n) = true
          then { t with schema := s, use_dedicated_table := d } else t) =
          { t with schema := s, use_dedicated_table := d } := by
        simp [hn]
      rw [hhead, List.find?_cons_of_neg _ (by simp [hno]),
        List.find?_cons_of_neg _ (by simp [hno])]
      exact ih
    · rw [List.map_cons]
      have hhead : (if (t.name == n) = true
          then { t with schema := s, use_dedicated_table := d } else t) = t := by
        simp [hn]
      rw [hhead]
      by_cases ho : t.name = other
      · rw [List.find?_cons_of_pos _ (by simp [ho]), List.find?_cons_of_pos _ (by simp [ho])]
      · rw [List.find?_cons_of_neg _ (by simp [ho]), List.find?_cons_of_neg _ (by simp [ho])]
        exact ih

theorem find?_append_new_other (topics : List TopicRow) (row : TopicRow)
    (other : String) (hrow : ¬ (row.name = other)) :
    (topics ++ [row]).find? (fun t => t.name == other) =
      topics.find? (fun t => t.name == other) := by
  induction topics with
  | nil =>
    simp only [List.nil_append]
    rw [List.find?_cons_of_neg _ (by simp [hrow])]
  | cons t ts ih =>
    by_cases ho : t.name = other
    · rw [List.cons_append, List.find?_cons_of_pos _ (by simp [ho]),
        List.find?_cons_of_pos _ (by simp [ho])]
    · rw [List.cons_append, List.find?_cons_of_neg _ (by simp [ho]),
        List.find?_cons_of_neg _ (by simp [ho])]
      exact ih

theorem addTopic_mem_fixed (topics : List TopicRow) (n : String) (s : Schema) (d : Bool) :
    ∀ t ∈ (addTopic topics n s d).1,
      (if t.name == n then { t with schema := s, use_dedicated_table := d } else t) = t := by
  intro t ht
  simp only [addTopic] at ht
  split at ht
  · obtain ⟨t0, _, rfl⟩ := List.mem_map.mp ht
    by_cases h0 : t0.name = n
    · simp [h0]
    · simp [h0]
  · rcases List.mem_append.mp ht with hmem | hnew
    · rename_i hany
      have : ¬ (t.name = n) := by
        intro e
        exact hany (List.any_of_mem hmem (by simp [e]))
      simp [this]
    · have : t = ⟨n, s, d⟩ := by simpa using hnew
      subst this
      simp

theorem addTopic_any (topics : List TopicRow) (n : String) (s : Schema) (d : Bool) :
    (addTopic topics n s d).1.any (fun t => t.name == n) = true := by
  simp only [addTopic]
  split
  · rename_i hany
    rcases List.any_eq_true.mp hany with ⟨t0, hmem, hname⟩
    refine List.any_eq_true.mpr ⟨_, List.mem_map_of_mem _ hmem, ?_⟩
    simp [hname]
  · exact List.any_eq_true.mpr ⟨⟨n, s, d⟩, by simp, by simp⟩

theorem addTopic_idem (topics : List TopicRow) (n : String) (s : Schema) (d : Bool) :
    (addTopic (addTopic topics n s d).1 n s d).1 = (addTopic topics n s d).1 := by
  conv_lhs => rw [addTopic]
  rw [if_pos (addTopic_any topics n s d)]
  calc ((addTopic topics n s d).1.map (fun t =>
          if t.name == n then { t with schema := s, use_dedicated_table := d } else t))
      = (addTopic topics n s d).1.map id := List.map_congr_left (addTopic_mem_fixed topics n s d)
    _ = (addTopic topics n s d).1 := List.map_id _

/-- C8 (amended): `addTopic` is an idempotent upsert — re-registering an
existing name overwrites its fields and storage mode in place and leaves
every other name's registration unchanged — but the operation returns no
value (`Promise<void>`), so the previous storage mode is NOT returned and a
caller cannot detect a mode change from its result. -/
theorem c8_register_upsert (topics : List TopicRow) (topicName : String)
    (schema : Schema) (ded : Bool) :
    (addTopic topics topicName schema ded).2 = () ∧
    findTopic (addTopic topics topicName schema ded).1 topicName =
      some ⟨topicName, schema, ded⟩ ∧
    (∀ other, other ≠ topicName →
      findTopic (addTopic topics topicName schema ded).1 other = findTopic topics other) ∧
    (addTopic (addTopic topics topicName schema ded).1 topicName schema ded).1 =
      (addTopic topics topicName schema ded).1 := by
  refine ⟨rfl, ?_, ?_, addTopic_idem topics topicName schema ded⟩
  · simp only [addTopic, findTopic]
    split
    · rename_i hany
      exact findTopic_map_update topics topicName schema ded hany
    · rename_i hany
      exact findTopic_append_new topics topicName schema ded (by simpa using hany)
  · intro other ho
    simp only [addTopic, findTopic]
    split
    · exact find?_map_update_other topics topicName schema ded other ho
    · exact find?_append_new_other topics ⟨topicName, schema, ded⟩ other
        (fun e => ho (by simpa using e.symm))

/-- Witness for C8 (amended): registering a fresh topic leaves an unrelated
name's lookup unchanged. -/
theorem c8_register_upsert_witness :
    ("other" ≠ "t") ∧
    findTopic (addTopic [] "t" [] false).1 "other" = findTopic [] "other" :=
  ⟨by decide, (c8_register_upsert [] "t" [] false).2.2.1 "other" (by decide)⟩

/-! ### C7 -/

theorem decodeRows_error_of_mem (schema : Schema) (includeMetadata : Bool) (l : List DedRow)
    (h : ∃ x ∈ l, ∃ e, decodeDedRow schema includeMetadata x = .error e) :
    ∃ e, decodeRows schema includeMetadata l = .error e := by
  induction l with
  | nil => simp at h
  | cons a l ih =>
    obtain ⟨x, hx, e, hfx⟩ := h
    rcases List.mem_cons.mp hx with rfl | hmem
    · exact ⟨e, by simp [decodeRows, hfx, Bind.bind, Except.bind]⟩
    · cases hfa : decodeDedRow schema includeMetadata a with
      | error e2 => exact ⟨e2, by simp [decodeRows, hfa, Bind.bind, Except.bind]⟩
      | ok b =>
        obtain ⟨e3, h3⟩ := ih ⟨x, hmem, e, hfx⟩
        exact ⟨e3, by simp [decodeRows, hfa, h3, Bind.bind, Except.bind, Functor.map, Except.map]⟩

/-- C7 counterexample: with a first row whose stored structured value fails
to parse and a second, well-formed row, the whole fetch returns an error —
the remaining record is NOT returned, so the failure is not reported
per-record. -/
theorem c7_counterexample :
    getMessagesDedicated
      [⟨1, 0, [("data", .pstructured "\x7b")]⟩, ⟨2, 1, [("data", .pstructured "[1]")]⟩]
      [("data", .typeName "object")] none 0 false .asc = .error .decodeFailure := by
  rfl

/-- C7 (amended): when any selected row's decode fails (a stored structured
value does not parse back), the whole fetch aborts with the decode error
and no records are returned; the error is per-fetch, not per-record. -/
theorem c7_decode_failure_aborts_fetch (tableRows : List DedRow) (schema : Schema)
    (limit : Option Int) (offset : Nat) (includeMetadata : Bool) (order : Order)
    (h : ∃ row ∈ selectDedicatedRows tableRows order limit offset,
      decodeDedRow schema includeMetadata row = .error .decodeFailure) :
    getMessagesDedicated tableRows schema limit offset includeMetadata order =
      .error .decodeFailure := by
  obtain ⟨e, he⟩ := decodeRows_error_of_mem schema includeMetadata
    (selectDedicatedRows tableRows order limit offset)
    (h.imp fun row hr => ⟨hr.1, ⟨_, hr.2⟩⟩)
  rw [getMessagesDedicated, he, DecodeError.eq_decodeFailure e]

/-- Witness for C7 (amended): a single-row table whose structured value is
the unparsable text left brace makes the fetch return the decode error. -/
theorem c7_decode_failure_aborts_fetch_witness :
    (decodeDedRow [("data", FieldDecl.typeName "object")] false
      ⟨1, 0, [("data", .pstructured "\x7b")]⟩ = .error .decodeFailure) ∧
    getMessagesDedicated [⟨1, 0, [("data", .pstructured "\x7b")]⟩]
      [("data", .typeName "object")] none 0 false .asc = .error .decodeFailure :=
  ⟨rfl, c7_decode_failure_aborts_fetch _ _ _ _ _ _
    ⟨⟨1, 0, [("data", .pstructured "\x7b")]⟩, by decide, rfl⟩⟩

/-! ### C2 -/

/-- C2 counterexample: two rows with equal `received_at` (ids 2 and 1, in
that physical order).  The query orders by `received_at` alone, so the
descending fetch is NOT the exact reverse of the ascending fetch: ties keep
their physical order in both directions instead of being broken by
ascending id. -/
theorem c2_counterexample :
    getMessagesDedicated [⟨2, 0, []⟩, ⟨1, 0, []⟩] [] none 0 true .desc ≠
      Except.map List.reverse
        (getMessagesDedicated [⟨2, 0, []⟩, ⟨1, 0, []⟩] [] none 0 true .asc) := by
  have h1 : getMessagesDedicated [⟨2, 0, []⟩, ⟨1, 0, []⟩] [] none 0 true .desc =
      .ok [⟨some 2, some 0, []⟩, ⟨some 1, some 0, []⟩] := rfl
  have h2 : Except.map List.reverse
      (getMessagesDedicated [⟨2, 0, []⟩, ⟨1, 0, []⟩] [] none 0 true .asc) =
      .ok [⟨some 1, some 0, []⟩, ⟨some 2, some 0, []⟩] := rfl
  rw [h1, h2]
  intro h
  simp only [Except.ok.injEq, List.cons.injEq, FetchedMessage.mk.injEq, Option.some.injEq] at h
  omega

theorem applyWindow_none_zero (rows : List α) : applyWindow none 0 rows = rows := by
  simp [applyWindow, jsTruthyLimit]

theorem sortRows_desc_eq_reverse_asc (recvOf : α → Int) (rows : List α)
    (hdist : rows.Pairwise (fun a b => recvOf a ≠ recvOf b)) :
    sortRowsByReceivedAt recvOf .desc rows =
      (sortRowsByReceivedAt recvOf .asc rows).reverse := by
  unfold sortRowsByReceivedAt
  have pA : List.Perm (rows.insertionSort (orderLe recvOf .asc)) rows :=
    List.perm_insertionSort _ _
  have pD : List.Perm (rows.insertionSort (orderLe recvOf .desc)) rows :=
    List.perm_insertionSort _ _
  have sA : List.Sorted (orderLe recvOf .asc) (rows.insertionSort (orderLe recvOf .asc)) :=
    List.sorted_insertionSort _ _
  have sD : List.Sorted (orderLe recvOf .desc) (rows.insertionSort (orderLe recvOf .desc)) :=
    List.sorted_insertionSort _ _
  have hdA : (rows.insertionSort (orderLe recvOf .asc)).Pairwise
      (fun a b => recvOf a ≠ recvOf b) := (pA.pairwise_iff (fun h => h.symm)).mpr hdist
  have hdD : (rows.insertionSort (orderLe recvOf .desc)).Pairwise
      (fun a b => recvOf a ≠ recvOf b) := (pD.pairwise_iff (fun h => h.symm)).mpr hdist
  have sltA : (rows.insertionSort (orderLe recvOf .asc)).Pairwise
      (fun a b => recvOf a < recvOf b) :=
    (sA.and hdA).imp (fun h => lt_of_le_of_ne h.1 h.2)
  have sltD : (rows.insertionSort (orderLe recvOf .desc)).Pairwise
      (fun a b => recvOf b < recvOf a) :=
    (sD.and hdD).imp (fun h => lt_of_le_of_ne h.1 (Ne.symm h.2))
  have sltDrev : (rows.insertionSort (orderLe recvOf .desc)).reverse.Pairwise
      (fun a b => recvOf a < recvOf b) := by
    rw [List.pairwise_reverse]
    exact sltD
  haveI : IsAntisymm α (fun a b => recvOf a < recvOf b) :=
    ⟨fun a b h1 h2 => absurd (h1.trans h2) (lt_irrefl _)⟩
  have hperm : List.Perm (rows.insertionSort (orderLe recvOf .desc)).reverse
      (rows.insertionSort (orderLe recvOf .asc)) :=
    ((List.reverse_perm _).trans pD).trans pA.symm
  have : (rows.insertionSort (orderLe recvOf .desc)).reverse =
      rows.insertionSort (orderLe recvOf .asc) :=
    List.eq_of_perm_of_sorted hperm sltDrev sltA
  calc rows.insertionSort (orderLe recvOf .desc)
      = (rows.insertionSort (orderLe recvOf .desc)).reverse.reverse := by
        rw [List.reverse_reverse]
    _ = (rows.insertionSort (orderLe recvOf .asc)).reverse := by rw [this]

/-- C2 (amended): rows are returned ordered by `received_at` in the
requested direction (in both storage branches); the source query carries no
id tie-break, so the relative order of rows with equal `received_at` is the
physical one, in both directions.  When the stored `received_at` values are
pairwise distinct, the descending fetch selects exactly the reverse of the
ascending fetch. -/
theorem c2_order_by_received_at (dedRows : List DedRow) (sharedRows : List SharedRow)
    (topicName : String)
    (hded : dedRows.Pairwise (fun a b => a.received_at ≠ b.received_at))
    (hsh : sharedRows.Pairwise (fun a b => a.received_at ≠ b.received_at)) :
    (∀ order : Order,
      (selectDedicatedRows dedRows order none 0).Sorted (orderLe DedRow.received_at order) ∧
      (selectSharedRows sharedRows topicName order none 0).Sorted
        (orderLe SharedRow.received_at order)) ∧
    selectDedicatedRows dedRows .desc none 0 = (selectDedicatedRows dedRows .asc none 0).reverse ∧
    selectSharedRows sharedRows topicName .desc none 0 =
      (selectSharedRows sharedRows topicName .asc none 0).reverse := by
  refine ⟨?_, ?_, ?_⟩
  · intro order
    constructor
    · rw [selectDedicatedRows, applyWindow_none_zero]
      exact List.sorted_insertionSort _ _
    · rw [selectSharedRows, applyWindow_none_zero]
      exact List.sorted_insertionSort _ _
  · rw [selectDedicatedRows, selectDedicatedRows, applyWindow_none_zero, applyWindow_none_zero]
    exact sortRows_desc_eq_reverse_asc _ _ hded
  · rw [selectSharedRows, selectSharedRows, applyWindow_none_zero, applyWindow_none_zero]
    exact sortRows_desc_eq_reverse_asc _ _
      (hsh.sublist (List.filter_sublist _))

/-- Witness for C2 (amended): two rows with distinct `received_at` values —
the descending selection is the reverse of the ascending one. -/
theorem c2_order_by_received_at_witness :
    (([⟨1, 5, []⟩, ⟨2, 3, []⟩] : List DedRow).Pairwise
      (fun a b => a.received_at ≠ b.received_at)) ∧
    selectDedicatedRows [⟨1, 5, []⟩, ⟨2, 3, []⟩] .desc none 0 =
      (selectDedicatedRows [⟨1, 5, []⟩, ⟨2, 3, []⟩] .asc none 0).reverse :=
  ⟨by decide,
    (c2_order_by_received_at [⟨1, 5, []⟩, ⟨2, 3, []⟩] [] "t" (by decide) (by decide)).2.1⟩

/-! ### C4 -/

theorem manageTableRetention_noop (idOf : α → Nat) (recvOf : α → Int)
    (maxTableSizeKB totalSizeBytes : Nat) (rows : List α)
    (h : totalSizeBytes ≤ 1024 * maxTableSizeKB ∨ rows.length = 0) :
    manageTableRetention idOf recvOf maxTableSizeKB totalSizeBytes rows = (0, rows) := by
  rcases h with h | h
  · have h1 : (totalSizeBytes : ℚ) / 1024 ≤ (maxTableSizeKB : ℚ) := by
      rw [div_le_iff (by norm_num : (0 : ℚ) < 1024)]
      have : (totalSizeBytes : ℚ) ≤ ((1024 * maxTableSizeKB : Nat) : ℚ) := by
        exact_mod_cast h
      calc (totalSizeBytes : ℚ) ≤ ((1024 * maxTableSizeKB : Nat) : ℚ) := this
        _ = (maxTableSizeKB : ℚ) * 1024 := by push_cast; ring
    simp only [manageTableRetention]
    rw [if_pos h1]
  · by_cases h1 : (totalSizeBytes : ℚ) / 1024 ≤ (maxTableSizeKB : ℚ)
    · simp only [manageTableRetention]
      rw [if_pos h1]
    · simp only [manageTableRetention]
      rw [if_neg h1, if_pos h]

/-- C4: a put into the shared store followed by a fetch returns a payload
equal to the one stored.  The shared branch writes the whole payload as one
opaque structured value (the appended row carries exactly the input
payload, untouched), returns the assigned id, and the fetch (which applies
no per-field type conversion) yields that exact payload, in either order.
The footprint hypothesis keeps the retention pass a no-op so the fresh row
is not evicted. -/
theorem c4_shared_roundtrip (maxTableSizeKB totalSizeBytes : Nat)
    (tableRows : List SharedRow) (nextId : Nat) (topicName : String) (payload : Json)
    (now : Int) (hsize : totalSizeBytes ≤ 1024 * maxTableSizeKB) :
    (storeMessageShared maxTableSizeKB totalSizeBytes tableRows nextId topicName payload now).1
      = nextId ∧
    (storeMessageShared maxTableSizeKB totalSizeBytes tableRows nextId topicName payload now).2
      = tableRows ++ [⟨nextId, topicName, payload, now⟩] ∧
    ∀ order : Order, payload ∈ getMessagesShared
      (storeMessageShared maxTableSizeKB totalSizeBytes tableRows nextId topicName payload now).2
      topicName none 0 false order := by
  have htbl : (storeMessageShared maxTableSizeKB totalSizeBytes tableRows nextId topicName
      payload now).2 = tableRows ++ [⟨nextId, topicName, payload, now⟩] := by
    simp only [storeMessageShared]
    rw [manageTableRetention_noop _ _ _ _ _ (Or.inl hsize)]
  refine ⟨rfl, htbl, ?_⟩
  intro order
  rw [htbl, getMessagesShared, selectSharedRows, applyWindow_none_zero]
  refine List.mem_map.mpr ⟨⟨nextId, topicName, payload, now⟩, ?_, rfl⟩
  rw [sortRowsByReceivedAt]
  refine (List.perm_insertionSort _ _).mem_iff.mpr ?_
  exact List.mem_filter.mpr ⟨List.mem_append_right _ (by simp), by simp⟩

/-- Witness for C4: a concrete object payload stored into an empty shared
table under the footprint limit is fetched back unchanged. -/
theorem c4_shared_roundtrip_witness :
    (512 ≤ 1024 * 100) ∧
    Json.obj [("a", .num 1)] ∈ getMessagesShared
      (storeMessageShared 100 512 [] 1 "sensor" (.obj [("a", .num 1)]) 0).2
      "sensor" none 0 false .asc :=
  ⟨by decide, (c4_shared_roundtrip 100 512 [] 1 "sensor" (.obj [("a", .num 1)]) 0
    (by decide)).2.2 .asc⟩

/-! ### C9 -/

theorem foldl_csv_line (g : β → String) (l : List β) :
    ∀ init : String,
      l.foldl (fun acc m => acc ++ (g m ++ "\n")) init =
        init ++ l.foldr (fun m acc => g m ++ ("\n" ++ acc)) "" := by
  induction l with
  | nil => intro init; simp
  | cons a l ih =>
    intro init
    rw [List.foldl_cons, List.foldr_cons, ih]
    simp only [String.append_assoc]

/-- C9: for a non-empty fetched sequence, the CSV rendering is the header
line `id,received_at,<schema fields in declaration order>` followed by one
line per message; each line renders the id and received_at cells and then
each schema field's value (serialized JSON for arrays and objects, literal
text otherwise), with the quoting rule — wrap in double quotes, doubling
internal double quotes — applied exactly to the field values that contain a
comma, a double quote, or a line break (see `csvFieldCell`). -/
theorem c9_csv_rendering (now : String) (messages : List CsvMessage) (schema : Schema)
    (useDedicatedTable : Bool) (h : messages ≠ []) :
    generateCSV now messages schema useDedicatedTable =
      (String.intercalate "," ("id" :: "received_at" :: schema.map (fun fd => fd.1)) ++ "\n") ++
      messages.foldr (fun m acc =>
        String.intercalate ","
          (csvIdCell m :: csvReceivedAtCell now m ::
            schema.map (fun fd => csvFieldCell (csvLookupField m fd.1))) ++ "\n" ++ acc) "" := by
  simp only [generateCSV, String.append_assoc]
  rw [if_neg (by simpa using h), foldl_csv_line]
  simp [List.map_map, Function.comp_def, String.append_assoc]

/-- Witness for C9: a one-message sequence with a comma-bearing string
field. -/
theorem c9_csv_rendering_witness :
    (([⟨some 3, some "2024-01-01", [("a", Json.str "x,y")]⟩] : List CsvMessage) ≠ []) ∧
    generateCSV "T0" [⟨some 3, some "2024-01-01", [("a", Json.str "x,y")]⟩]
      [("a", .typeName "string")] true =
      (String.intercalate ","
        ("id" :: "received_at" :: ([("a", FieldDecl.typeName "string")] : Schema).map
          (fun fd => fd.1)) ++ "\n") ++
      ([⟨some 3, some "2024-01-01", [("a", Json.str "x,y")]⟩] : List CsvMessage).foldr
        (fun m acc =>
          String.intercalate ","
            (csvIdCell m :: csvReceivedAtCell "T0" m ::
              ([("a", FieldDecl.typeName "string")] : Schema).map
                (fun fd => csvFieldCell (csvLookupField m fd.1))) ++ "\n" ++ acc) "" :=
  ⟨by simp,
    c9_csv_rendering "T0" [⟨some 3, some "2024-01-01", [("a", Json.str "x,y")]⟩]
      [("a", .typeName "string")] true (by simp)⟩

/-! ### C1 -/

theorem manageTableRetention_eq_delete (idOf : α → Nat) (recvOf : α → Int)
    (maxTableSizeKB totalSizeBytes : Nat) (rows : List α)
    (h1 : ¬ ((totalSizeBytes : ℚ) / 1024 ≤ (maxTableSizeKB : ℚ)))
    (h2 : ¬ (rows.length = 0))
    (h3 : ¬ (⌈((totalSizeBytes : ℚ) / 1024 - (maxTableSizeKB : ℚ) * (0.8 : ℚ)) /
      (((totalSizeBytes : ℚ) / 1024) / (rows.length : ℚ))⌉ ≤ 0)) :
    manageTableRetention idOf recvOf maxTableSizeKB totalSizeBytes rows =
      (rows.length - (rows.filter (fun r =>
        !((((rows.insertionSort (retentionLe idOf recvOf)).take
          (⌈((totalSizeBytes : ℚ) / 1024 - (maxTableSizeKB : ℚ) * (0.8 : ℚ)) /
            (((totalSizeBytes : ℚ) / 1024) / (rows.length : ℚ))⌉).toNat).map idOf).contains
          (idOf r)))).length,
       rows.filter (fun r =>
        !((((rows.insertionSort (retentionLe idOf recvOf)).take
          (⌈((totalSizeBytes : ℚ) / 1024 - (maxTableSizeKB : ℚ) * (0.8 : ℚ)) /
            (((totalSizeBytes : ℚ) / 1024) / (rows.length : ℚ))⌉).toNat).map idOf).contains
          (idOf r)))) := by
  simp only [manageTableRetention]
  rw [if_neg h1, if_neg h2, if_neg h3]

theorem retention_rows_bounds (maxTableSizeKB totalSizeBytes count : Nat)
    (hover : 1024 * maxTableSizeKB < totalSizeBytes) (hc : 0 < count) :
    (⌈((totalSizeBytes : ℚ) / 1024 - (maxTableSizeKB : ℚ) * (0.8 : ℚ)) /
      (((totalSizeBytes : ℚ) / 1024) / (count : ℚ))⌉).toNat ≤ count ∧
    0 < ⌈((totalSizeBytes : ℚ) / 1024 - (maxTableSizeKB : ℚ) * (0.8 : ℚ)) /
      (((totalSizeBytes : ℚ) / 1024) / (count : ℚ))⌉ := by
  have hm0 : (0 : ℚ) ≤ (maxTableSizeKB : ℚ) := Nat.cast_nonneg _
  have hmq : (maxTableSizeKB : ℚ) < (totalSizeBytes : ℚ) / 1024 := by
    rw [lt_div_iff (by norm_num : (0 : ℚ) < 1024)]
    calc (maxTableSizeKB : ℚ) * 1024 = ((1024 * maxTableSizeKB : Nat) : ℚ) := by push_cast; ring
      _ < (totalSizeBytes : ℚ) := by exact_mod_cast hover
  have hs : (0 : ℚ) < (totalSizeBytes : ℚ) / 1024 := lt_of_le_of_lt hm0 hmq
  have htarget : (maxTableSizeKB : ℚ) * (0.8 : ℚ) ≤ (maxTableSizeKB : ℚ) :=
    mul_le_of_le_one_right hm0 (by norm_num)
  have hex : (0 : ℚ) < (totalSizeBytes : ℚ) / 1024 - (maxTableSizeKB : ℚ) * (0.8 : ℚ) := by
    linarith
  have hcq : (0 : ℚ) < (count : ℚ) := by exact_mod_cast hc
  have havg : (0 : ℚ) < ((totalSizeBytes : ℚ) / 1024) / (count : ℚ) := div_pos hs hcq
  refine ⟨?_, Int.ceil_pos.mpr (div_pos hex havg)⟩
  have hratio : ((totalSizeBytes : ℚ) / 1024 - (maxTableSizeKB : ℚ) * (0.8 : ℚ)) /
      (((totalSizeBytes : ℚ) / 1024) / (count : ℚ)) ≤ (count : ℚ) := by
    have hfrac : ((totalSizeBytes : ℚ) / 1024) / (((totalSizeBytes : ℚ) / 1024) / (count : ℚ)) =
        (count : ℚ) := by
      have hb : (0 : ℚ) < (totalSizeBytes : ℚ) := by
        exact_mod_cast Nat.lt_of_le_of_lt (Nat.zero_le _) hover
      field_simp
      ring
    have hnum : (totalSizeBytes : ℚ) / 1024 - (maxTableSizeKB : ℚ) * (0.8 : ℚ) ≤
        (totalSizeBytes : ℚ) / 1024 := by
      have : (0 : ℚ) ≤ (maxTableSizeKB : ℚ) * (0.8 : ℚ) :=
        mul_nonneg hm0 (by norm_num)
      linarith
    calc ((totalSizeBytes : ℚ) / 1024 - (maxTableSizeKB : ℚ) * (0.8 : ℚ)) /
        (((totalSizeBytes : ℚ) / 1024) / (count : ℚ))
        ≤ ((totalSizeBytes : ℚ) / 1024) / (((totalSizeBytes : ℚ) / 1024) / (count : ℚ)) :=
          (div_le_div_right havg).mpr hnum
      _ = (count : ℚ) := hfrac
  have hceil : ⌈((totalSizeBytes : ℚ) / 1024 - (maxTableSizeKB : ℚ) * (0.8 : ℚ)) /
      (((totalSizeBytes : ℚ) / 1024) / (count : ℚ))⌉ ≤ (count : ℤ) := by
    calc ⌈((totalSizeBytes : ℚ) / 1024 - (maxTableSizeKB : ℚ) * (0.8 : ℚ)) /
        (((totalSizeBytes : ℚ) / 1024) / (count : ℚ))⌉
        ≤ ⌈((count : ℚ))⌉ := Int.ceil_le_ceil hratio
      _ = (count : ℤ) := Int.ceil_natCast _
  exact Int.toNat_le.mpr hceil

theorem filter_drop_perm {α : Type} (idOf : α → Nat) (rows ordered : List α) (n : Nat)
    (hperm : List.Perm ordered rows) (hids : (rows.map idOf).Nodup) :
    List.Perm
      (rows.filter (fun r => !(((ordered.take n).map idOf).contains (idOf r))))
      (ordered.drop n) := by
  have hperm2 : List.Perm
      (rows.filter (fun r => !(((ordered.take n).map idOf).contains (idOf r))))
      (ordered.filter (fun r => !(((ordered.take n).map idOf).contains (idOf r)))) :=
    (hperm.filter _).symm
  have hnodup : (ordered.map idOf).Nodup := ((hperm.map idOf).nodup_iff).mpr hids
  have hsplitmap : ((ordered.take n).map idOf ++ (ordered.drop n).map idOf).Nodup := by
    rw [← List.map_append, List.take_append_drop]
    exact hnodup
  have hdisj : ((ordered.take n).map idOf).Disjoint ((ordered.drop n).map idOf) :=
    (List.nodup_append.mp hsplitmap).2.2
  have htake : (ordered.take n).filter
      (fun r => !(((ordered.take n).map idOf).contains (idOf r))) = [] := by
    rw [List.filter_eq_nil_iff]
    intro a ha
    simp only [Bool.not_eq_true', Bool.not_eq_false]
    exact List.elem_iff.mpr (List.mem_map_of_mem idOf ha)
  have hdrop : (ordered.drop n).filter
      (fun r => !(((ordered.take n).map idOf).contains (idOf r))) = ordered.drop n := by
    rw [List.filter_eq_self]
    intro a ha
    simp only [Bool.not_eq_true']
    rw [← Bool.not_eq_true, List.elem_iff]
    intro hmem
    exact hdisj hmem (List.mem_map_of_mem idOf ha)
  have hsplit : ordered.filter (fun r => !(((ordered.take n).map idOf).contains (idOf r))) =
      (ordered.take n ++ ordered.drop n).filter
        (fun r => !(((ordered.take n).map idOf).contains (idOf r))) := by
    rw [List.take_append_drop]
  have hfo : ordered.filter (fun r => !(((ordered.take n).map idOf).contains (idOf r))) =
      ordered.drop n := by
    rw [hsplit, List.filter_append, htake, hdrop, List.nil_append]
  exact hfo ▸ hperm2

/-- C1: when the footprint is at or under the configured maximum, or the
table is empty, the retention pass deletes nothing and returns 0; when the
footprint (in KB) exceeds the maximum and the row count is positive, it
returns exactly `ceil((footprint - 0.8 * maximum) / (footprint / rowCount))`
— the number of rows deleted — and the remaining rows are exactly the
original ones minus that many oldest rows in `(received_at ASC, id ASC)`
order. -/
theorem c1_retention {α : Type} (idOf : α → Nat) (recvOf : α → Int)
    (maxTableSizeKB totalSizeBytes : Nat) (rows : List α)
    (hids : (rows.map idOf).Nodup) :
    ((totalSizeBytes ≤ 1024 * maxTableSizeKB ∨ rows.length = 0) →
      manageTableRetention idOf recvOf maxTableSizeKB totalSizeBytes rows = (0, rows)) ∧
    (1024 * maxTableSizeKB < totalSizeBytes → rows ≠ [] →
      (manageTableRetention idOf recvOf maxTableSizeKB totalSizeBytes rows).1 =
        (⌈((totalSizeBytes : ℚ) / 1024 - (maxTableSizeKB : ℚ) * (0.8 : ℚ)) /
          (((totalSizeBytes : ℚ) / 1024) / (rows.length : ℚ))⌉).toNat ∧
      List.Perm (manageTableRetention idOf recvOf maxTableSizeKB totalSizeBytes rows).2
        ((rows.insertionSort (retentionLe idOf recvOf)).drop
          (manageTableRetention idOf recvOf maxTableSizeKB totalSizeBytes rows).1)) := by
  constructor
  · exact manageTableRetention_noop idOf recvOf _ _ rows
  · intro hover hne
    have hcount : 0 < rows.length := List.length_pos.mpr hne
    obtain ⟨hle, hpos⟩ :=
      retention_rows_bounds maxTableSizeKB totalSizeBytes rows.length hover hcount
    have hm0 : (0 : ℚ) ≤ (maxTableSizeKB : ℚ) := Nat.cast_nonneg _
    have hmq : (maxTableSizeKB : ℚ) < (totalSizeBytes : ℚ) / 1024 := by
      rw [lt_div_iff (by norm_num : (0 : ℚ) < 1024)]
      calc (maxTableSizeKB : ℚ) * 1024 = ((1024 * maxTableSizeKB : Nat) : ℚ) := by
            push_cast; ring
        _ < (totalSizeBytes : ℚ) := by exact_mod_cast hover
    have heq := manageTableRetention_eq_delete idOf recvOf maxTableSizeKB totalSizeBytes rows
      (not_le.mpr hmq) (by omega) (not_le.mpr hpos)
    have hpermsort : List.Perm (rows.insertionSort (retentionLe idOf recvOf)) rows :=
      List.perm_insertionSort _ _
    have hfperm := filter_drop_perm idOf rows (rows.insertionSort (retentionLe idOf recvOf))
      (⌈((totalSizeBytes : ℚ) / 1024 - (maxTableSizeKB : ℚ) * (0.8 : ℚ)) /
        (((totalSizeBytes : ℚ) / 1024) / (rows.length : ℚ))⌉).toNat hpermsort hids
    have hflen := hfperm.length_eq
    rw [List.length_drop, hpermsort.length_eq] at hflen
    have hcomp : rows.length -
        (rows.filter (fun r =>
          !((((rows.insertionSort (retentionLe idOf recvOf)).take
            (⌈((totalSizeBytes : ℚ) / 1024 - (maxTableSizeKB : ℚ) * (0.8 : ℚ)) /
              (((totalSizeBytes : ℚ) / 1024) / (rows.length : ℚ))⌉).toNat).map idOf).contains
            (idOf r)))).length =
        (⌈((totalSizeBytes : ℚ) / 1024 - (maxTableSizeKB : ℚ) * (0.8 : ℚ)) /
          (((totalSizeBytes : ℚ) / 1024) / (rows.length : ℚ))⌉).toNat := by
      omega
    rw [heq]
    exact ⟨hcomp, by rw [hcomp]; exact hfperm⟩

/-- Witness for C1: a 2 KB table over a 1 KB maximum with two rows — the
pass must delete ceil((2 - 0.8) / 1) = 2 rows. -/
theorem c1_retention_witness :
    ((([⟨1, 0, []⟩, ⟨2, 0, []⟩] : List DedRow).map DedRow.id).Nodup) ∧
    (1024 * 1 < 2048) ∧
    (([⟨1, 0, []⟩, ⟨2, 0, []⟩] : List DedRow) ≠ []) ∧
    ((manageTableRetention DedRow.id DedRow.received_at 1 2048
        [⟨1, 0, []⟩, ⟨2, 0, []⟩]).1 =
      (⌈((2048 : ℚ) / 1024 - (1 : ℚ) * (0.8 : ℚ)) /
        (((2048 : ℚ) / 1024) / ((([⟨1, 0, []⟩, ⟨2, 0, []⟩] : List DedRow)).length : ℚ))⌉).toNat ∧
    List.Perm (manageTableRetention DedRow.id DedRow.received_at 1 2048
        [⟨1, 0, []⟩, ⟨2, 0, []⟩]).2
      ((([⟨1, 0, []⟩, ⟨2, 0, []⟩] : List DedRow).insertionSort
        (retentionLe DedRow.id DedRow.received_at)).drop
        (manageTableRetention DedRow.id DedRow.received_at 1 2048
          [⟨1, 0, []⟩, ⟨2, 0, []⟩]).1)) :=
  ⟨by decide, by decide, by simp,
    (c1_retention DedRow.id DedRow.received_at 1 2048 [⟨1, 0, []⟩, ⟨2, 0, []⟩]
      (by decide)).2 (by decide) (by simp)⟩
